import Mathlib

/-!
# Shallow embedding of the CHIP-8 interpreter core (src/src/chip8.rs)

Conventions of the embedding:

* Fixed-size Rust arrays (`[u8; 4096]`, `[u16; 16]`, ...) are modelled as total
  functions `ℕ → ℕ` together with guarded access helpers `arrGet`/`arrSet`
  that return `none` exactly when the Rust index operation would be
  out of bounds (a panic).  An operation that can panic therefore returns
  `Option Chip8`, with `none` standing for the fault.
* Machine integers are natural numbers; every arithmetic step of the source
  that is performed at width `w` is taken modulo `2^w` at the point where the
  source performs it (two's-complement wraparound semantics of the released
  build; `wrapping_add`/`wrapping_sub`/`overflowing_add` are explicit in the
  source anyway).
* Each Rust method of `impl Chip8` becomes one Lean definition of the same
  name in the `Chip8` namespace, translated line by line.
* The random byte consumed by opcode `CXNN` is passed in as an explicit
  oracle argument `r`.
-/

set_option maxHeartbeats 1000000
set_option maxRecDepth 4096

/-- Machine state: the fields of `struct Chip8` (src/src/chip8.rs lines 29-42).
`v`, `stack`, `memory`, `display`, `key` are arrays of length 16, 16, 4096,
64*32 = 2048 and 16 respectively. -/
structure Chip8 where
  v : ℕ → ℕ
  index : ℕ
  pc : ℕ
  sp : ℕ
  stack : ℕ → ℕ
  memory : ℕ → ℕ
  delay_timer : ℕ
  sound_timer : ℕ
  opcode : ℕ
  display : ℕ → ℕ
  key : ℕ → ℕ
  draw_flag : Bool

/-- Guarded array read: `a[i]` on a Rust array of length `len`;
`none` is the out-of-bounds panic. -/
def arrGet (len : ℕ) (a : ℕ → ℕ) (i : ℕ) : Option ℕ :=
  if i < len then some (a i) else none

/-- Guarded array write: `a[i] = x` on a Rust array of length `len`;
`none` is the out-of-bounds panic. -/
def arrSet (len : ℕ) (a : ℕ → ℕ) (i x : ℕ) : Option (ℕ → ℕ) :=
  if i < len then some (Function.update a i x) else none

/-- `u8` wrapping subtraction: `a.wrapping_sub(b)` for `a b < 256`. -/
def wsub8 (a b : ℕ) : ℕ := (a + 256 - b % 256) % 256

namespace Chip8

/-- The 80-byte hexadecimal glyph set `CHIP8_FONTSET` (lines 9-26). -/
def CHIP8_FONTSET : List ℕ :=
  [0xF0, 0x90, 0x90, 0x90, 0xF0,
   0x20, 0x60, 0x20, 0x20, 0x70,
   0xF0, 0x10, 0xF0, 0x80, 0xF0,
   0xF0, 0x10, 0xF0, 0x10, 0xF0,
   0x90, 0x90, 0xF0, 0x10, 0x10,
   0xF0, 0x80, 0xF0, 0x10, 0xF0,
   0xF0, 0x80, 0xF0, 0x90, 0xF0,
   0xF0, 0x10, 0x20, 0x40, 0x40,
   0xF0, 0x90, 0xF0, 0x90, 0xF0,
   0xF0, 0x90, 0xF0, 0x10, 0xF0,
   0xF0, 0x90, 0xF0, 0x90, 0x90,
   0xE0, 0x90, 0xE0, 0x90, 0xE0,
   0xF0, 0x80, 0x80, 0x80, 0xF0,
   0xE0, 0x90, 0x90, 0x90, 0xE0,
   0xF0, 0x80, 0xF0, 0x80, 0xF0,
   0xF0, 0x80, 0xF0, 0x80, 0x80]

/-- Loop body of `load_fontset` (lines 67-71): writes the bytes of `bs`
at consecutive addresses `0x50 + i`; every index is in bounds. -/
def load_fontset_go : (ℕ → ℕ) → ℕ → List ℕ → (ℕ → ℕ)
  | mem, _, [] => mem
  | mem, i, b :: rest => load_fontset_go (Function.update mem (0x50 + i) b) (i + 1) rest

/-- `load_fontset` (lines 67-71). -/
def load_fontset (mem : ℕ → ℕ) : ℕ → ℕ :=
  load_fontset_go mem 0 CHIP8_FONTSET

/-- `Chip8::new` (lines 47-64): all fields zeroed, `pc = 0x200`, fontset
loaded at 0x50. -/
def new : Chip8 :=
  { v := fun _ => 0
    index := 0
    pc := 0x200
    sp := 0
    stack := fun _ => 0
    memory := load_fontset (fun _ => 0)
    delay_timer := 0
    sound_timer := 0
    opcode := 0
    display := fun _ => 0
    key := fun _ => 0
    draw_flag := false }

/-- Copy loop of `load_rom` (lines 79-86): byte `i` of the buffer goes to
`memory[i + 512]` while `i + 512 < 4096`; the first byte that does not fit
stops the loop (diagnostic printed, no failure). -/
def load_rom_go : (ℕ → ℕ) → ℕ → List ℕ → (ℕ → ℕ)
  | mem, _, [] => mem
  | mem, i, b :: rest =>
    if i + 512 < 4096 then load_rom_go (Function.update mem (i + 512) b) (i + 1) rest
    else mem

/-- Memory effect of `load_rom` (lines 74-88), with the file already read
into the byte buffer (the file I/O of lines 75-77 is the external
collaborator). -/
def load_rom (mem : ℕ → ℕ) (buffer : List ℕ) : ℕ → ℕ :=
  load_rom_go mem 0 buffer

/-- `0x00E0`, `cls` (lines 169-171).
The body only advances the program counter; the display is NOT touched. -/
def cls (s : Chip8) : Chip8 :=
  { s with pc := (s.pc + 2) % 65536 }

/-- `0x00EE`, `ret` (lines 175-179): `sp -= 1` (u16 wrap), read `stack[sp]`,
`pc = stack[sp] - 2` (u16 wrap), then `pc += 4`. -/
def ret (s : Chip8) : Option Chip8 :=
  match arrGet 16 s.stack ((s.sp + 65535) % 65536) with
  | none => none
  | some a =>
    some { s with sp := (s.sp + 65535) % 65536, pc := ((a + 65534) % 65536 + 4) % 65536 }

/-- `1NNN`, `jmp` (lines 183-185). -/
def jmp (s : Chip8) (op : ℕ) : Chip8 :=
  { s with pc := op &&& 0x0FFF }

/-- `2NNN`, `jsr` (lines 189-193): `stack[sp] = pc`, `sp += 1`,
`pc = NNN`. -/
def jsr (s : Chip8) (op : ℕ) : Option Chip8 :=
  match arrSet 16 s.stack s.sp s.pc with
  | none => none
  | some st => some { s with stack := st, sp := (s.sp + 1) % 65536, pc := op &&& 0x0FFF }

/-- `3XNN`, `skeq_c` (lines 197-205). -/
def skeq_c (s : Chip8) (op : ℕ) : Chip8 :=
  let x := (op &&& 0x0F00) >>> 8
  let nn := op &&& 0x00FF
  let pc1 := if s.v x = nn then (s.pc + 2) % 65536 else s.pc
  { s with pc := (pc1 + 2) % 65536 }

/-- `4XNN`, `skne_c` (lines 209-217). -/
def skne_c (s : Chip8) (op : ℕ) : Chip8 :=
  let x := (op &&& 0x0F00) >>> 8
  let nn := op &&& 0x00FF
  let pc1 := if s.v x ≠ nn then (s.pc + 2) % 65536 else s.pc
  { s with pc := (pc1 + 2) % 65536 }

/-- `5XY0`, `skeq_r` (lines 221-229). -/
def skeq_r (s : Chip8) (op : ℕ) : Chip8 :=
  let x := (op &&& 0x0F00) >>> 8
  let y := (op &&& 0x00F0) >>> 4
  let pc1 := if s.v x = s.v y then (s.pc + 2) % 65536 else s.pc
  { s with pc := (pc1 + 2) % 65536 }

/-- `6XNN`, `mov_c` (lines 233-239). -/
def mov_c (s : Chip8) (op : ℕ) : Chip8 :=
  let x := (op &&& 0x0F00) >>> 8
  let nn := op &&& 0x00FF
  { s with v := Function.update s.v x nn, pc := (s.pc + 2) % 65536 }

/-- `7XNN`, `add_c` (lines 243-249): `v[x] = v[x].wrapping_add(nn)`. -/
def add_c (s : Chip8) (op : ℕ) : Chip8 :=
  let x := (op &&& 0x0F00) >>> 8
  let nn := op &&& 0x00FF
  { s with v := Function.update s.v x ((s.v x + nn) % 256), pc := (s.pc + 2) % 65536 }

/-- `8XY0`, `mov_r` (lines 253-259). -/
def mov_r (s : Chip8) (op : ℕ) : Chip8 :=
  let x := (op &&& 0x0F00) >>> 8
  let y := (op &&& 0x00F0) >>> 4
  { s with v := Function.update s.v x (s.v y), pc := (s.pc + 2) % 65536 }

/-- `8XY1`, `or_r` (lines 263-269). -/
def or_r (s : Chip8) (op : ℕ) : Chip8 :=
  let x := (op &&& 0x0F00) >>> 8
  let y := (op &&& 0x00F0) >>> 4
  { s with v := Function.update s.v x (s.v x ||| s.v y), pc := (s.pc + 2) % 65536 }

/-- `8XY2`, `and_r` (lines 273-279). -/
def and_r (s : Chip8) (op : ℕ) : Chip8 :=
  let x := (op &&& 0x0F00) >>> 8
  let y := (op &&& 0x00F0) >>> 4
  { s with v := Function.update s.v x (s.v x &&& s.v y), pc := (s.pc + 2) % 65536 }

/-- `8XY3`, `xor_r` (lines 283-289). -/
def xor_r (s : Chip8) (op : ℕ) : Chip8 :=
  let x := (op &&& 0x0F00) >>> 8
  let y := (op &&& 0x00F0) >>> 4
  { s with v := Function.update s.v x (s.v x ^^^ s.v y), pc := (s.pc + 2) % 65536 }

/-- `8XY4`, `add_r` (lines 293-302): `overflowing_add`, result to `v[x]`,
carry bit to `v[0xF]` (in that order, so the carry wins when `x = 0xF`). -/
def add_r (s : Chip8) (op : ℕ) : Chip8 :=
  let x := (op &&& 0x0F00) >>> 8
  let y := (op &&& 0x00F0) >>> 4
  let result := (s.v x + s.v y) % 256
  let carry : ℕ := if s.v x + s.v y ≥ 256 then 1 else 0
  { s with v := Function.update (Function.update s.v x result) 0xF carry,
           pc := (s.pc + 2) % 65536 }

/-- `8XY5`, `sub_r` (lines 306-322): `v[x] = v[x].wrapping_sub(v[y])`, then
`v[0xF] = 1` if the pre-operation `v[x] ≥ v[y]` (no borrow) else `0`.
The flag write comes second, so it wins when `x = 0xF`. -/
def sub_r (s : Chip8) (op : ℕ) : Chip8 :=
  let x := (op &&& 0x0F00) >>> 8
  let y := (op &&& 0x00F0) >>> 4
  let vx := s.v x
  let vy := s.v y
  let flag : ℕ := if vx ≥ vy then 1 else 0
  { s with v := Function.update (Function.update s.v x (wsub8 vx vy)) 0xF flag,
           pc := (s.pc + 2) % 65536 }

/-- `8X06`, `shr_r` (lines 326-333): LSB saved, `v[x] >>= 1`, LSB to
`v[0xF]` (flag write second). -/
def shr_r (s : Chip8) (op : ℕ) : Chip8 :=
  let x := (op &&& 0x0F00) >>> 8
  let lsb := s.v x &&& 0x1
  { s with v := Function.update (Function.update s.v x (s.v x >>> 1)) 0xF lsb,
           pc := (s.pc + 2) % 65536 }

/-- `8XY7`, `rsb_r` (lines 337-352): `v[x] = v[y].wrapping_sub(v[x])`, then
`v[0xF] = 1` if pre-operation `v[y] ≥ v[x]` else `0`. -/
def rsb_r (s : Chip8) (op : ℕ) : Chip8 :=
  let x := (op &&& 0x0F00) >>> 8
  let y := (op &&& 0x00F0) >>> 4
  let vx := s.v x
  let vy := s.v y
  let flag : ℕ := if vy ≥ vx then 1 else 0
  { s with v := Function.update (Function.update s.v x (wsub8 vy vx)) 0xF flag,
           pc := (s.pc + 2) % 65536 }

/-- `8X0E`, `shl_r` (lines 356-363): MSB saved, `v[x] <<= 1` (u8, high bit
discarded), MSB to `v[0xF]`. -/
def shl_r (s : Chip8) (op : ℕ) : Chip8 :=
  let x := (op &&& 0x0F00) >>> 8
  let msb := (s.v x &&& 0x80) >>> 7
  { s with v := Function.update (Function.update s.v x ((s.v x <<< 1) % 256)) 0xF msb,
           pc := (s.pc + 2) % 65536 }

/-- `9XY0`, `skne_r` (lines 367-375). -/
def skne_r (s : Chip8) (op : ℕ) : Chip8 :=
  let x := (op &&& 0x0F00) >>> 8
  let y := (op &&& 0x00F0) >>> 4
  let pc1 := if s.v x ≠ s.v y then (s.pc + 2) % 65536 else s.pc
  { s with pc := (pc1 + 2) % 65536 }

/-- `ANNN`, `mvi` (lines 379-384). -/
def mvi (s : Chip8) (op : ℕ) : Chip8 :=
  { s with index := op &&& 0x0FFF, pc := (s.pc + 2) % 65536 }

/-- `BNNN`, `jmi` (lines 388-392): the source truncates NNN with `as u8`
(`let nnn = (opcode & 0x0FFF) as u8`), then adds `v[0]` at width u8 and
widens the sum to u16 for the program counter. -/
def jmi (s : Chip8) (op : ℕ) : Chip8 :=
  let nnn := (op &&& 0x0FFF) % 256
  { s with pc := (nnn + s.v 0) % 256 }

/-- `CXNN`, `rand` (lines 396-402): `v[x] = r & nn` for the oracle byte `r`.
No program-counter advance is performed by the source. -/
def rand (s : Chip8) (op : ℕ) (r : ℕ) : Chip8 :=
  let x := (op &&& 0x0F00) >>> 8
  let nn := op &&& 0x00FF
  { s with v := Function.update s.v x (r &&& nn) }

/-- Display index of the sprite pixel at column offset `xline` of row
offset `yline`: `(vx + xline) % 64 + ((vy + yline) % 32) * 64`
(lines 418-420). -/
def spriteIdx (vx vy yline xline : ℕ) : ℕ :=
  (vx + xline) % 64 + ((vy + yline) % 32) * 64

/-- One `xline` step of the sprite blit (lines 417-425) on the pair
(display, collision flag): if bit `xline` (MSB first) of the row byte is
set, record a collision when the pixel is already 1 and XOR the pixel. -/
def drawBit (vx vy yline pixel : ℕ) (dv : (ℕ → ℕ) × ℕ) (xline : ℕ) : (ℕ → ℕ) × ℕ :=
  if pixel &&& (0x80 >>> xline) ≠ 0 then
    let idx := spriteIdx vx vy yline xline
    (Function.update dv.1 idx (dv.1 idx ^^^ 1), if dv.1 idx = 1 then 1 else dv.2)
  else dv

/-- The `yline` loop of `sprite` (lines 414-427): for each remaining row,
read the row byte `memory[index + yline]` (guarded) and run the 8 `xline`
steps. -/
def drawRowsGo (mem : ℕ → ℕ) (index vx vy : ℕ) :
    List ℕ → (ℕ → ℕ) × ℕ → Option ((ℕ → ℕ) × ℕ)
  | [], dv => some dv
  | yline :: rest, dv =>
    match arrGet 4096 mem (index + yline) with
    | none => none
    | some pixel =>
      drawRowsGo mem index vx vy rest ((List.range 8).foldl (drawBit vx vy yline pixel) dv)

/-- `DXYN`, `sprite` (lines 406-431): origin `(v[X], v[Y])`, height N rows;
`v[0xF]` is cleared before the blit and set to 1 on any collision (the
collision accumulator threads the `v[0xF]` writes of lines 411 and 422);
afterwards `draw_flag` is set and the counter advances by 2. -/
def sprite (s : Chip8) (op : ℕ) : Option Chip8 :=
  let vx := s.v ((op &&& 0x0F00) >>> 8)
  let vy := s.v ((op &&& 0x00F0) >>> 4)
  let height := op &&& 0x000F
  match drawRowsGo s.memory s.index vx vy (List.range height) (s.display, 0) with
  | none => none
  | some dv =>
    some { s with v := Function.update s.v 0xF dv.2, display := dv.1,
                  draw_flag := true, pc := (s.pc + 2) % 65536 }

/-- `EX9E`, `skpr` (lines 435-443): reads `key[v[x]]` with no bounds guard;
`v[x] ≥ 16` is an out-of-bounds panic. -/
def skpr (s : Chip8) (op : ℕ) : Option Chip8 :=
  let x := (op &&& 0x0F00) >>> 8
  match arrGet 16 s.key (s.v x) with
  | none => none
  | some k =>
    let pc1 := if k ≠ 0 then (s.pc + 2) % 65536 else s.pc
    some { s with pc := (pc1 + 2) % 65536 }

/-- `EXA1`, `skup` (lines 447-455): reads `key[v[x]]` with no bounds guard;
`v[x] ≥ 16` is an out-of-bounds panic. -/
def skup (s : Chip8) (op : ℕ) : Option Chip8 :=
  let x := (op &&& 0x0F00) >>> 8
  match arrGet 16 s.key (s.v x) with
  | none => none
  | some k =>
    let pc1 := if k = 0 then (s.pc + 2) % 65536 else s.pc
    some { s with pc := (pc1 + 2) % 65536 }

/-- `FX07`, `gdelay` (lines 459-464). -/
def gdelay (s : Chip8) (op : ℕ) : Chip8 :=
  let x := (op &&& 0x0F00) >>> 8
  { s with v := Function.update s.v x s.delay_timer, pc := (s.pc + 2) % 65536 }

/-- `FX0A`, `key` (lines 468-470): the body is empty; the state is returned
unchanged. -/
def key_op (s : Chip8) : Chip8 := s

/-- `FX15`, `sdelay` (lines 474-479): the body executes
`self.v[x] = self.sound_timer` — it loads `v[x]` from the SOUND timer and
never writes `delay_timer`. -/
def sdelay (s : Chip8) (op : ℕ) : Chip8 :=
  let x := (op &&& 0x0F00) >>> 8
  { s with v := Function.update s.v x s.sound_timer, pc := (s.pc + 2) % 65536 }

/-- `FX18`, `ssound` (lines 483-488). -/
def ssound (s : Chip8) (op : ℕ) : Chip8 :=
  let x := (op &&& 0x0F00) >>> 8
  { s with sound_timer := s.v x, pc := (s.pc + 2) % 65536 }

/-- `FX1E`, `adi` (lines 492-497): `index += v[x]` at width u16. -/
def adi (s : Chip8) (op : ℕ) : Chip8 :=
  let x := (op &&& 0x0F00) >>> 8
  { s with index := (s.index + s.v x) % 65536, pc := (s.pc + 2) % 65536 }

/-- `FX29`, `font` (lines 501-506): `index = 0x50 + v[x] * 5`, computed at
width u8 before widening to u16. -/
def font (s : Chip8) (op : ℕ) : Chip8 :=
  let x := (op &&& 0x0F00) >>> 8
  { s with index := (0x50 + (s.v x * 5) % 256) % 256, pc := (s.pc + 2) % 65536 }

/-- `FX33`, `bcd` (lines 510-518): three guarded memory writes at
`index`, `index+1`, `index+2`. -/
def bcd (s : Chip8) (op : ℕ) : Option Chip8 :=
  let x := (op &&& 0x0F00) >>> 8
  match arrSet 4096 s.memory s.index (s.v x / 100) with
  | none => none
  | some m1 =>
    match arrSet 4096 m1 (s.index + 1) ((s.v x / 10) % 10) with
    | none => none
    | some m2 =>
      match arrSet 4096 m2 (s.index + 2) ((s.v x % 100) % 10) with
      | none => none
      | some m3 => some { s with memory := m3, pc := (s.pc + 2) % 65536 }

/-- Loop of `str` (lines 525-527): write `v[i]` to `memory[index + i]`
for the listed `i` (guarded). -/
def str_go (v : ℕ → ℕ) (index : ℕ) : List ℕ → (ℕ → ℕ) → Option (ℕ → ℕ)
  | [], mem => some mem
  | i :: rest, mem =>
    match arrSet 4096 mem (index + i) (v i) with
    | none => none
    | some m1 => str_go v index rest m1

/-- `FX55`, `str` (lines 522-530). -/
def str (s : Chip8) (op : ℕ) : Option Chip8 :=
  let x := (op &&& 0x0F00) >>> 8
  match str_go s.v s.index (List.range (x + 1)) s.memory with
  | none => none
  | some m => some { s with memory := m, pc := (s.pc + 2) % 65536 }

/-- Loop of `ldr` (lines 537-539): load `v[i]` from `memory[index + i]`
for the listed `i` (guarded). -/
def ldr_go (mem : ℕ → ℕ) (index : ℕ) : List ℕ → (ℕ → ℕ) → Option (ℕ → ℕ)
  | [], v => some v
  | i :: rest, v =>
    match arrGet 4096 mem (index + i) with
    | none => none
    | some b => ldr_go mem index rest (Function.update v i b)

/-- `FX65`, `ldr` (lines 534-542). -/
def ldr (s : Chip8) (op : ℕ) : Option Chip8 :=
  let x := (op &&& 0x0F00) >>> 8
  match ldr_go s.memory s.index (List.range (x + 1)) s.v with
  | none => none
  | some v1 => some { s with v := v1, pc := (s.pc + 2) % 65536 }

/-- The shared fall-through of every `_ =>` arm: advance the counter by 2. -/
def incPC (s : Chip8) : Chip8 :=
  { s with pc := (s.pc + 2) % 65536 }

/-- `decode_execute` (lines 110-161): dispatch on `opcode & 0xF000`, with
the 0x0/0x8/0xE/0xF families dispatching again on the low byte or low
nibble exactly as the source's nested `match`.  `r` is the random-byte
oracle consumed by `CXNN`. -/
def decode_execute (s : Chip8) (op r : ℕ) : Option Chip8 :=
  if op &&& 0xF000 = 0x0000 then
    if op &&& 0x00FF = 0x00E0 then some (cls s)
    else if op &&& 0x00FF = 0x00EE then ret s
    else some (incPC s)
  else if op &&& 0xF000 = 0x1000 then some (jmp s op)
  else if op &&& 0xF000 = 0x2000 then jsr s op
  else if op &&& 0xF000 = 0x3000 then some (skeq_c s op)
  else if op &&& 0xF000 = 0x4000 then some (skne_c s op)
  else if op &&& 0xF000 = 0x5000 then some (skeq_r s op)
  else if op &&& 0xF000 = 0x6000 then some (mov_c s op)
  else if op &&& 0xF000 = 0x7000 then some (add_c s op)
  else if op &&& 0xF000 = 0x8000 then
    if op &&& 0x000F = 0x000 then some (mov_r s op)
    else if op &&& 0x000F = 0x001 then some (or_r s op)
    else if op &&& 0x000F = 0x002 then some (and_r s op)
    else if op &&& 0x000F = 0x003 then some (xor_r s op)
    else if op &&& 0x000F = 0x004 then some (add_r s op)
    else if op &&& 0x000F = 0x005 then some (sub_r s op)
    else if op &&& 0x000F = 0x006 then some (shr_r s op)
    else if op &&& 0x000F = 0x007 then some (rsb_r s op)
    else if op &&& 0x000F = 0x00E then some (shl_r s op)
    else some (incPC s)
  else if op &&& 0xF000 = 0x9000 then some (skne_r s op)
  else if op &&& 0xF000 = 0xA000 then some (mvi s op)
  else if op &&& 0xF000 = 0xB000 then some (jmi s op)
  else if op &&& 0xF000 = 0xC000 then some (rand s op r)
  else if op &&& 0xF000 = 0xD000 then sprite s op
  else if op &&& 0xF000 = 0xE000 then
    if op &&& 0x000F = 0x000E then skpr s op
    else if op &&& 0x000F = 0x0001 then skup s op
    else some (incPC s)
  else if op &&& 0xF000 = 0xF000 then
    if op &&& 0x00FF = 0x0007 then some (gdelay s op)
    else if op &&& 0x00FF = 0x000a then some (key_op s)
    else if op &&& 0x00FF = 0x0015 then some (sdelay s op)
    else if op &&& 0x00FF = 0x0018 then some (ssound s op)
    else if op &&& 0x00FF = 0x001e then some (adi s op)
    else if op &&& 0x00FF = 0x0029 then some (font s op)
    else if op &&& 0x00FF = 0x0033 then bcd s op
    else if op &&& 0x00FF = 0x0055 then str s op
    else if op &&& 0x00FF = 0x0065 then ldr s op
    else some (incPC s)
  else some (incPC s)

/-- `fetch_opcode` (lines 105-107): big-endian 16-bit read at `pc`
(both byte reads guarded). -/
def fetch_opcode (s : Chip8) : Option ℕ :=
  match arrGet 4096 s.memory s.pc with
  | none => none
  | some hi =>
    match arrGet 4096 s.memory (s.pc + 1) with
    | none => none
    | some lo => some ((hi <<< 8) ||| lo)

/-- The timer update at the end of `cycle` (lines 95-101). -/
def tickTimers (s : Chip8) : Chip8 :=
  let s1 := if s.delay_timer > 0 then { s with delay_timer := s.delay_timer - 1 } else s
  if s1.sound_timer > 0 then { s1 with sound_timer := s1.sound_timer - 1 } else s1

/-- `cycle` (lines 91-102): fetch, store the opcode, decode/execute,
tick the two timers. -/
def cycle (s : Chip8) (r : ℕ) : Option Chip8 :=
  match fetch_opcode s with
  | none => none
  | some op =>
    match decode_execute { s with opcode := op } op r with
    | none => none
    | some s2 => some (tickTimers s2)

/-!
## Auxiliary definitions for the sprite-draw analysis

`sprite`'s double loop is re-expressed as a single fold (`blit`) over the
list of display indices it actually toggles (`plotList`); the equivalence
is proved below, not assumed.
-/

/-- One blit step per plotted index: record a collision when the pixel is
already 1, then XOR the pixel — the body of lines 421-424.  `d` is the
display, `vf` the collision accumulator. -/
def blit : List ℕ → (ℕ → ℕ) → ℕ → (ℕ → ℕ) × ℕ
  | [], d, vf => (d, vf)
  | i :: rest, d, vf =>
    blit rest (Function.update d i (d i ^^^ 1)) (if d i = 1 then 1 else vf)

/-- The display indices toggled by row `y` of the sprite: the columns whose
bit of the row byte `mem (index + y)` is set, mapped through `spriteIdx`. -/
def rowIdx (mem : ℕ → ℕ) (index vx vy y : ℕ) : List ℕ :=
  ((List.range 8).filter
    (fun xline => decide (mem (index + y) &&& (0x80 >>> xline) ≠ 0))).map
    (spriteIdx vx vy y)

/-- All display indices toggled by the rows in `R`. -/
def plotList (mem : ℕ → ℕ) (index vx vy : ℕ) : List ℕ → List ℕ
  | [] => []
  | y :: rest => rowIdx mem index vx vy y ++ plotList mem index vx vy rest

/-- The display indices toggled by executing `DXYN` opcode `op` in state
`s`. -/
def spritePlots (s : Chip8) (op : ℕ) : List ℕ :=
  plotList s.memory s.index (s.v ((op &&& 0x0F00) >>> 8)) (s.v ((op &&& 0x00F0) >>> 4))
    (List.range (op &&& 0x000F))

/-!
## Concrete machine states used as evaluation inputs
-/

/-- Fresh machine with the display pixel at index 0 lit. -/
def s_C1 : Chip8 := { new with display := Function.update (fun _ => 0) 0 1 }

/-- Result of executing `00E0` on `s_C1`. -/
def r_C1 : Chip8 := (decode_execute s_C1 0x00E0 0).getD new

/-- Fresh machine with `v[3] = 5`, `sound_timer = 9`, `delay_timer = 0`. -/
def s_C2 : Chip8 := { new with v := Function.update (fun _ => 0) 3 5, sound_timer := 9 }

/-- Result of executing `F315` (set-delay from `v[3]`) on `s_C2`. -/
def r_C2 : Chip8 := (decode_execute s_C2 0xF315 0).getD new

/-- Result of executing `B300` (jump to `0x300 + v[0]`, `v[0] = 0`) on a
fresh machine. -/
def r_C3 : Chip8 := (decode_execute new 0xB300 0).getD new

/-- Result of executing `C122` with random byte `0xFF` on a fresh machine. -/
def r_C4 : Chip8 := (decode_execute new 0xC122 0xFF).getD new

/-- Fresh machine with the two-byte program `F0 33` (opcode `F033`, BCD
store) loaded at 0x200 and the index register aimed at the font region. -/
def s_C5 : Chip8 :=
  { new with memory := load_rom new.memory [0xF0, 0x33], index := 0x50 }

/-- Result of one cycle on `s_C5`. -/
def r_C5 : Chip8 := (cycle s_C5 0).getD new

/-- Result of one cycle on a fresh machine (fetches opcode `0x0000`). -/
def r_C5w : Chip8 := (cycle new 0).getD new

/-- Machine with one sprite row byte `0xF0` at `memory[0x50]`, the index
register aimed there, empty display, `v[0] = v[1] = 0`. -/
def s_C6 : Chip8 :=
  { new with memory := fun a => if a = 0x50 then 0xF0 else 0, index := 0x50 }

/-- `s_C6` after drawing the 1-row sprite `D001` once. -/
def s_C6a : Chip8 := (sprite s_C6 0xD001).getD new

/-- `s_C6` after drawing the 1-row sprite `D001` twice. -/
def s_C6b : Chip8 := (sprite s_C6a 0xD001).getD new

/-- Fresh machine with `v[0xF] = 5` and `v[0] = 3`. -/
def s_C8 : Chip8 :=
  { new with v := Function.update (Function.update (fun _ => 0) 0xF 5) 0 3 }

/-- Result of executing `8F05` (sub with X = 0xF) on `s_C8`. -/
def r_C8 : Chip8 := (decode_execute s_C8 0x8F05 0).getD new

/-- Fresh machine with `v[0] = 20` (an out-of-range key number). -/
def s_C10 : Chip8 := { new with v := Function.update (fun _ => 0) 0 20 }

end Chip8

/-!
## Theorems
-/

/-- Addresses below the copy window are untouched by the `load_rom` loop. -/
theorem load_rom_go_below (buffer : List ℕ) :
    ∀ (mem : ℕ → ℕ) (i a : ℕ), a < i + 512 →
      Chip8.load_rom_go mem i buffer a = mem a := by
  induction buffer with
  | nil => intro mem i a _; rfl
  | cons b rest ih =>
    intro mem i a ha
    simp only [Chip8.load_rom_go]
    by_cases hcap : i + 512 < 4096
    · rw [if_pos hcap, ih _ (i + 1) a (by omega), Function.update_noteq (by omega)]
    · rw [if_neg hcap]

/-- Addresses at or beyond the end of the buffer's window are untouched. -/
theorem load_rom_go_beyond (buffer : List ℕ) :
    ∀ (mem : ℕ → ℕ) (i a : ℕ), i + 512 + buffer.length ≤ a →
      Chip8.load_rom_go mem i buffer a = mem a := by
  induction buffer with
  | nil => intro mem i a _; rfl
  | cons b rest ih =>
    intro mem i a ha
    simp only [Chip8.load_rom_go, List.length_cons] at ha ⊢
    by_cases hcap : i + 512 < 4096
    · rw [if_pos hcap, ih _ (i + 1) a (by omega), Function.update_noteq (by omega)]
    · rw [if_neg hcap]

/-- Addresses at or past 4096 are never written by the `load_rom` loop. -/
theorem load_rom_go_high (buffer : List ℕ) :
    ∀ (mem : ℕ → ℕ) (i a : ℕ), 4096 ≤ a →
      Chip8.load_rom_go mem i buffer a = mem a := by
  induction buffer with
  | nil => intro mem i a _; rfl
  | cons b rest ih =>
    intro mem i a ha
    simp only [Chip8.load_rom_go]
    by_cases hcap : i + 512 < 4096
    · rw [if_pos hcap, ih _ (i + 1) a ha, Function.update_noteq (by omega)]
    · rw [if_neg hcap]

/-- Byte `j` of the buffer lands at address `i + 512 + j` when it fits. -/
theorem load_rom_go_get (buffer : List ℕ) :
    ∀ (mem : ℕ → ℕ) (i j : ℕ), j < buffer.length → i + 512 + j < 4096 →
      Chip8.load_rom_go mem i buffer (i + 512 + j) = buffer.getD j 0 := by
  induction buffer with
  | nil => intro mem i j hj _; simp at hj
  | cons b rest ih =>
    intro mem i j hj hcap
    have hc : i + 512 < 4096 := by omega
    simp only [Chip8.load_rom_go, if_pos hc]
    match j with
    | 0 =>
      rw [load_rom_go_below rest _ (i + 1) _ (by omega)]
      simp
    | Nat.succ k =>
      have := ih (Function.update mem (i + 512) b) (i + 1) k
        (by simpa using Nat.lt_of_succ_lt_succ (by simpa using hj)) (by omega)
      have harr : i + 1 + 512 + k = i + 512 + (k + 1) := by omega
      rw [harr] at this
      rw [this]
      simp

/-- Claim C9: `load_rom` copies the ROM image one-to-one to memory from
address 0x200 on, up to `min (length) 3584` bytes (the copy loop stops at
the end of the 4096-byte memory, i.e. after byte 3583, without failing),
and leaves every address outside the copied window — in particular the
font region 0x050-0x09F, which lies below 0x200 — unchanged. -/
theorem load_rom_copies (mem : ℕ → ℕ) (buffer : List ℕ) (j a : ℕ)
    (hj : j < buffer.length) (hj2 : j < 3584)
    (ha : a < 512 ∨ 512 + min buffer.length 3584 ≤ a) :
    Chip8.load_rom mem buffer (512 + j) = buffer.getD j 0 ∧
    Chip8.load_rom mem buffer a = mem a := by
  constructor
  · have := load_rom_go_get buffer mem 0 j hj (by omega)
    simpa using this
  · rcases ha with ha | ha
    · exact load_rom_go_below buffer mem 0 a (by omega)
    · rcases le_or_lt buffer.length 3584 with hlen | hlen
      · exact load_rom_go_beyond buffer mem 0 a (by omega)
      · exact load_rom_go_high buffer mem 0 a (by omega)

/-- Witness for C9 at a concrete memory, buffer, index and address. -/
theorem load_rom_copies_witness :
    Chip8.load_rom (fun _ => 7) [1, 2, 3] 513 = 2 ∧
    Chip8.load_rom (fun _ => 7) [1, 2, 3] 80 = 7 := by
  have h := load_rom_copies (fun _ => 7) [1, 2, 3] 1 80 (by decide) (by decide)
    (Or.inl (by decide))
  simpa using h

/-- Claim C1: executing opcode `00E0` does NOT clear the display — the
body of `cls` only advances the program counter by 2.  Evaluated at a
state with pixel 0 lit: the pixel is still lit afterwards, contradicting
the claimed zeroing of the grid. -/
theorem cls_keeps_display :
    Chip8.decode_execute Chip8.s_C1 0x00E0 0 = some Chip8.r_C1 ∧
    Chip8.s_C1.display 0 = 1 ∧ Chip8.r_C1.display 0 = 1 ∧ Chip8.r_C1.pc = 0x202 :=
  ⟨rfl, rfl, rfl, rfl⟩

/-- Claim C2: executing opcode `F315` on a state with `v[3] = 5`,
`sound_timer = 9`, `delay_timer = 0`: the delay timer is NOT set to
`v[3]` (it stays 0) and `v[3]` is overwritten with the sound timer (9) —
the body of `sdelay` executes `v[x] = sound_timer`. -/
theorem sdelay_wrong_direction :
    Chip8.decode_execute Chip8.s_C2 0xF315 0 = some Chip8.r_C2 ∧
    Chip8.s_C2.v 3 = 5 ∧ Chip8.s_C2.sound_timer = 9 ∧ Chip8.s_C2.delay_timer = 0 ∧
    Chip8.r_C2.delay_timer = 0 ∧ Chip8.r_C2.v 3 = 9 ∧ Chip8.r_C2.pc = 0x202 :=
  ⟨rfl, rfl, rfl, rfl, rfl, rfl, rfl⟩

/-- Claim C3: executing opcode `B300` with `v[0] = 0` sets the program
counter to 0, not to `0x300`: `jmi` truncates NNN to 8 bits with `as u8`
before the addition. -/
theorem jmi_truncates_nnn :
    Chip8.decode_execute Chip8.new 0xB300 0 = some Chip8.r_C3 ∧
    Chip8.new.v 0 = 0 ∧ Chip8.r_C3.pc = 0 ∧ Chip8.r_C3.pc ≠ 0x300 :=
  ⟨rfl, rfl, rfl, by decide⟩

/-- Claim C4: executing opcode `C122` with random byte `0xFF` stores
`0xFF & 0x22 = 0x22` in `v[1]` (all bits outside the mask clear), but the
program counter is NOT advanced: `rand` has no `pc += 2`. -/
theorem rand_pc_stuck :
    Chip8.decode_execute Chip8.new 0xC122 0xFF = some Chip8.r_C4 ∧
    Chip8.r_C4.v 1 = 0x22 ∧ Chip8.r_C4.v 1 &&& 0xDD = 0 ∧
    Chip8.r_C4.pc = Chip8.new.pc ∧ Chip8.r_C4.pc ≠ 0x202 :=
  ⟨rfl, rfl, by decide, rfl, by decide⟩

/-- Counterexample to claim C5: one cycle of the machine `s_C5` (fresh
machine, program `F033`, `index = 0x50`) overwrites font byte
`memory[0x50]` (0xF0 becomes 0): the BCD-store opcode can mutate the font
region after initialization. -/
theorem cycle_overwrites_font :
    Chip8.cycle Chip8.s_C5 0 = some Chip8.r_C5 ∧
    Chip8.s_C5.memory 0x50 = 0xF0 ∧ Chip8.r_C5.memory 0x50 = 0 :=
  ⟨rfl, rfl, rfl⟩

/-- Claim C10: the key-skip opcodes `EX9E`/`EXA1` succeed exactly when
`v[X] < 16`; for `v[X] ≥ 16` the read `key[v[X]]` is out of bounds and
the operation faults. -/
theorem keyskip_oob (s : Chip8) (op r : ℕ)
    (he : op &&& 0xF000 = 0xE000)
    (hlo : op &&& 0x000F = 0x000E ∨ op &&& 0x000F = 0x0001) :
    (Chip8.decode_execute s op r).isSome ↔ s.v ((op &&& 0x0F00) >>> 8) < 16 := by
  rcases hlo with h | h
  · rcases Nat.lt_or_ge (s.v ((op &&& 0x0F00) >>> 8)) 16 with hk | hk
    · simp [Chip8.decode_execute, he, h, Chip8.skpr, arrGet, hk]
    · simp [Chip8.decode_execute, he, h, Chip8.skpr, arrGet, Nat.not_lt.mpr hk, hk]
  · rcases Nat.lt_or_ge (s.v ((op &&& 0x0F00) >>> 8)) 16 with hk | hk
    · simp [Chip8.decode_execute, he, h, Chip8.skup, arrGet, hk]
    · simp [Chip8.decode_execute, he, h, Chip8.skup, arrGet, Nat.not_lt.mpr hk, hk]

/-- Witness for C10: on `s_C10` (`v[0] = 20`), opcode `E09E` faults. -/
theorem keyskip_oob_witness :
    (Chip8.decode_execute Chip8.s_C10 0xE09E 0).isSome ↔
      Chip8.s_C10.v ((0xE09E &&& 0x0F00) >>> 8) < 16 :=
  keyskip_oob Chip8.s_C10 0xE09E 0 (by decide) (Or.inl (by decide))

/-- A pixel not in the toggle list is untouched by `blit`. -/
theorem blit_fst_not_mem : ∀ (L : List ℕ) (d : ℕ → ℕ) (vf i : ℕ),
    i ∉ L → (Chip8.blit L d vf).1 i = d i := by
  intro L
  induction L with
  | nil => intro d vf i _; rfl
  | cons j rest ih =>
    intro d vf i hi
    rw [List.mem_cons, not_or] at hi
    simp only [Chip8.blit]
    rw [ih _ _ i hi.2]
    exact Function.update_noteq hi.1 _ _

/-- A pixel in a duplicate-free toggle list is XORed exactly once. -/
theorem blit_fst_mem : ∀ (L : List ℕ) (d : ℕ → ℕ) (vf i : ℕ),
    L.Nodup → i ∈ L → (Chip8.blit L d vf).1 i = d i ^^^ 1 := by
  intro L
  induction L with
  | nil => intro d vf i _ hi; simp at hi
  | cons j rest ih =>
    intro d vf i hnd hi
    rw [List.nodup_cons] at hnd
    simp only [Chip8.blit]
    rcases List.mem_cons.mp hi with rfl | hi'
    · rw [blit_fst_not_mem _ _ _ i hnd.1]
      exact Function.update_same _ _ _
    · have hij : i ≠ j := fun h => hnd.1 (h ▸ hi')
      rw [ih _ _ i hnd.2 hi', Function.update_noteq hij]

/-- The collision accumulator ends at 1 or keeps its initial value. -/
theorem blit_snd_cases : ∀ (L : List ℕ) (d : ℕ → ℕ) (vf : ℕ),
    (Chip8.blit L d vf).2 = 1 ∨ (Chip8.blit L d vf).2 = vf := by
  intro L
  induction L with
  | nil => intro d vf; right; rfl
  | cons j rest ih =>
    intro d vf
    simp only [Chip8.blit]
    rcases ih (Function.update d j (d j ^^^ 1)) (if d j = 1 then 1 else vf) with h | h
    · exact Or.inl h
    · rw [h]
      by_cases hc : d j = 1
      · exact Or.inl (if_pos hc)
      · exact Or.inr (if_neg hc)

/-- Over a duplicate-free toggle list the final collision accumulator is 1
exactly when some toggled pixel was already 1 at the start (or it was 1
already): the sticky set-on-collision behaviour of lines 421-423. -/
theorem blit_snd_eq_one_iff : ∀ (L : List ℕ) (d : ℕ → ℕ) (vf : ℕ), L.Nodup →
    ((Chip8.blit L d vf).2 = 1 ↔ (∃ i ∈ L, d i = 1) ∨ vf = 1) := by
  intro L
  induction L with
  | nil => intro d vf _; simp [Chip8.blit]
  | cons j rest ih =>
    intro d vf hnd
    rw [List.nodup_cons] at hnd
    have hupd : ∀ i ∈ rest, (Function.update d j (d j ^^^ 1)) i = d i := by
      intro i hi
      exact Function.update_noteq (fun h : i = j => hnd.1 (h ▸ hi)) _ _
    simp only [Chip8.blit]
    rw [ih _ _ hnd.2]
    constructor
    · rintro (⟨i, hi, hval⟩ | hvf)
      · exact Or.inl ⟨i, List.mem_cons_of_mem _ hi, by rwa [hupd i hi] at hval⟩
      · by_cases hc : d j = 1
        · exact Or.inl ⟨j, List.mem_cons_self j rest, hc⟩
        · rw [if_neg hc] at hvf
          exact Or.inr hvf
    · rintro (⟨i, hi, hval⟩ | hvf)
      · rcases List.mem_cons.mp hi with rfl | hi'
        · exact Or.inr (if_pos hval)
        · exact Or.inl ⟨i, hi', by rwa [hupd i hi']⟩
      · right
        by_cases hc : d j = 1
        · exact if_pos hc
        · rw [if_neg hc]
          exact hvf

/-- `blit` over a concatenation is composition. -/
theorem blit_append : ∀ (L1 L2 : List ℕ) (d : ℕ → ℕ) (vf : ℕ),
    Chip8.blit (L1 ++ L2) d vf =
      Chip8.blit L2 (Chip8.blit L1 d vf).1 (Chip8.blit L1 d vf).2 := by
  intro L1
  induction L1 with
  | nil => intro L2 d vf; rfl
  | cons j rest ih =>
    intro L2 d vf
    rw [List.cons_append]
    simp only [Chip8.blit]
    exact ih L2 _ _

/-- The inner `xline` loop of `sprite` is `blit` over the row's set-bit
columns. -/
theorem foldl_drawBit (vx vy y pixel : ℕ) : ∀ (xs : List ℕ) (dv : (ℕ → ℕ) × ℕ),
    xs.foldl (Chip8.drawBit vx vy y pixel) dv =
      Chip8.blit (((xs.filter (fun xline => decide (pixel &&& (0x80 >>> xline) ≠ 0))).map
        (Chip8.spriteIdx vx vy y))) dv.1 dv.2 := by
  intro xs
  induction xs with
  | nil => intro dv; rfl
  | cons x rest ih =>
    intro dv
    rw [List.foldl_cons]
    by_cases hp : pixel &&& (0x80 >>> x) ≠ 0
    · rw [List.filter_cons_of_pos (by simpa using hp), List.map_cons, ih]
      simp only [Chip8.blit, Chip8.drawBit]
      rw [if_pos hp]
    · rw [List.filter_cons_of_neg (by simpa using hp), ih]
      simp only [Chip8.drawBit]
      rw [if_neg hp]

/-- A successful run of the row loop of `sprite` computes exactly the
`blit` of the sprite's plotted index list. -/
theorem drawRowsGo_some (mem : ℕ → ℕ) (index vx vy : ℕ) :
    ∀ (R : List ℕ) (dv : (ℕ → ℕ) × ℕ) (dv' : (ℕ → ℕ) × ℕ),
      Chip8.drawRowsGo mem index vx vy R dv = some dv' →
      dv' = Chip8.blit (Chip8.plotList mem index vx vy R) dv.1 dv.2 := by
  intro R
  induction R with
  | nil =>
    intro dv dv' h
    simp only [Chip8.drawRowsGo] at h
    cases h
    rfl
  | cons y rest ih =>
    intro dv dv' h
    simp only [Chip8.drawRowsGo] at h
    cases hg : arrGet 4096 mem (index + y) with
    | none => rw [hg] at h; exact absurd h (by simp)
    | some pixel =>
      rw [hg] at h
      have hpix : pixel = mem (index + y) := by
        unfold arrGet at hg
        by_cases hb : index + y < 4096
        · rw [if_pos hb] at hg
          exact (Option.some.inj hg).symm
        · rw [if_neg hb] at hg
          exact absurd hg (by simp)
      have hrec := ih _ _ h
      rw [hrec, foldl_drawBit]
      simp only [Chip8.plotList, Chip8.rowIdx, blit_append]
      rw [← hpix]

/-- Distinct (row, column) offsets of a sprite hit distinct display cells:
the X wrap is modulo 64 over 8 consecutive columns and the Y wrap modulo
32 over fewer than 32 consecutive rows. -/
theorem spriteIdx_inj (vx vy y1 x1 y2 x2 : ℕ)
    (hy1 : y1 < 32) (hy2 : y2 < 32) (hx1 : x1 < 8) (hx2 : x2 < 8)
    (h : Chip8.spriteIdx vx vy y1 x1 = Chip8.spriteIdx vx vy y2 x2) :
    y1 = y2 ∧ x1 = x2 := by
  unfold Chip8.spriteIdx at h
  omega

/-- Membership in a sprite row's toggle list. -/
theorem mem_rowIdx (mem : ℕ → ℕ) (index vx vy y i : ℕ) :
    i ∈ Chip8.rowIdx mem index vx vy y ↔
      ∃ x, x < 8 ∧ mem (index + y) &&& (0x80 >>> x) ≠ 0 ∧
        Chip8.spriteIdx vx vy y x = i := by
  simp only [Chip8.rowIdx, List.mem_map, List.mem_filter, List.mem_range,
    decide_eq_true_eq]
  constructor
  · rintro ⟨x, ⟨hx, hbit⟩, hix⟩
    exact ⟨x, hx, hbit, hix⟩
  · rintro ⟨x, hx, hbit, hix⟩
    exact ⟨x, ⟨hx, hbit⟩, hix⟩

/-- Membership in the full toggle list. -/
theorem mem_plotList (mem : ℕ → ℕ) (index vx vy : ℕ) :
    ∀ (R : List ℕ) (i : ℕ),
      i ∈ Chip8.plotList mem index vx vy R ↔
        ∃ y ∈ R, i ∈ Chip8.rowIdx mem index vx vy y := by
  intro R
  induction R with
  | nil => intro i; simp [Chip8.plotList]
  | cons y rest ih =>
    intro i
    simp only [Chip8.plotList, List.mem_append, ih, List.mem_cons]
    constructor
    · rintro (h | ⟨y', hy', h⟩)
      · exact ⟨y, Or.inl rfl, h⟩
      · exact ⟨y', Or.inr hy', h⟩
    · rintro ⟨y', rfl | hy', h⟩
      · exact Or.inl h
      · exact Or.inr ⟨y', hy', h⟩

/-- One sprite row toggles each display cell at most once. -/
theorem rowIdx_nodup (mem : ℕ → ℕ) (index vx vy y : ℕ) (hy : y < 32) :
    (Chip8.rowIdx mem index vx vy y).Nodup := by
  apply List.Nodup.map_on
  · intro x1 hx1 x2 hx2 heq
    have h1 : x1 < 8 := List.mem_range.mp (List.mem_of_mem_filter hx1)
    have h2 : x2 < 8 := List.mem_range.mp (List.mem_of_mem_filter hx2)
    exact (spriteIdx_inj vx vy y x1 y x2 hy hy h1 h2 heq).2
  · exact List.Nodup.filter _ (List.nodup_range 8)

/-- The full toggle list of a sprite of at most 32 rows is duplicate-free:
within one draw no display cell is XORed twice. -/
theorem plotList_nodup (mem : ℕ → ℕ) (index vx vy : ℕ) :
    ∀ R : List ℕ, R.Nodup → (∀ y ∈ R, y < 32) →
      (Chip8.plotList mem index vx vy R).Nodup := by
  intro R
  induction R with
  | nil => intro _ _; simp [Chip8.plotList]
  | cons y rest ih =>
    intro hnd hlt
    rw [List.nodup_cons] at hnd
    simp only [Chip8.plotList]
    rw [List.nodup_append]
    refine ⟨rowIdx_nodup _ _ _ _ _ (hlt y (List.mem_cons_self _ _)),
      ih hnd.2 (fun z hz => hlt z (List.mem_cons_of_mem _ hz)), ?_⟩
    intro a ha hb
    rw [mem_plotList] at hb
    obtain ⟨y', hy', hb⟩ := hb
    rw [mem_rowIdx] at ha hb
    obtain ⟨x, hx, _, hxi⟩ := ha
    obtain ⟨x', hx', _, hxi'⟩ := hb
    have heq : Chip8.spriteIdx vx vy y x = Chip8.spriteIdx vx vy y' x' := by
      rw [hxi, hxi']
    have hyy := spriteIdx_inj vx vy y x y' x'
      (hlt y (List.mem_cons_self _ _)) (hlt y' (List.mem_cons_of_mem _ hy')) hx hx' heq
    exact hnd.1 (hyy.1 ▸ hy')

/-- A successful `sprite` execution produces exactly: display blitted over
the plotted index list, `v[0xF]` the final collision accumulator (started
at 0), `draw_flag` set, counter advanced by 2. -/
theorem sprite_eq (s : Chip8) (op : ℕ) (s' : Chip8) (h : Chip8.sprite s op = some s') :
    s' = { s with
      v := Function.update s.v 0xF (Chip8.blit (Chip8.spritePlots s op) s.display 0).2,
      display := (Chip8.blit (Chip8.spritePlots s op) s.display 0).1,
      draw_flag := true, pc := (s.pc + 2) % 65536 } := by
  simp only [Chip8.sprite] at h
  cases hdv : Chip8.drawRowsGo s.memory s.index (s.v ((op &&& 0x0F00) >>> 8))
      (s.v ((op &&& 0x00F0) >>> 4)) (List.range (op &&& 0x000F)) (s.display, 0) with
  | none => rw [hdv] at h; exact absurd h (by simp)
  | some dv =>
    rw [hdv] at h
    have hb := drawRowsGo_some s.memory s.index _ _ _ _ _ hdv
    have hs := Option.some.inj h
    subst hs
    rw [hb]
    rfl

/-- Claim C6 (amended): drawing the same N-row sprite twice in a row at
the same origin (X, Y ≠ 0xF, so the collision-flag write does not move the
origin; both draws complete) restores the display to its contents before
the first draw.  Within a single draw, VF is cleared before the blit and a
collision sets it stickily: after the first draw VF is 1 exactly when some
plotted pixel was already lit, and VF is always 0 or 1.  If no other
sprite overlapped the affected pixels, the second draw leaves VF at 1 (not
0) whenever the sprite plots at least one pixel — its own first-draw
pixels collide — and at 0 only when it plots none. -/
theorem sprite_double_draw (s s1 s2 : Chip8) (op : ℕ)
    (hX : (op &&& 0x0F00) >>> 8 ≠ 0xF) (hY : (op &&& 0x00F0) >>> 4 ≠ 0xF)
    (h1 : Chip8.sprite s op = some s1) (h2 : Chip8.sprite s1 op = some s2) :
    s2.display = s.display ∧
    (s1.v 0xF = 0 ∨ s1.v 0xF = 1) ∧
    (s1.v 0xF = 1 ↔ ∃ i ∈ Chip8.spritePlots s op, s.display i = 1) ∧
    ((∀ i ∈ Chip8.spritePlots s op, s.display i = 0) →
      ((Chip8.spritePlots s op = [] → s2.v 0xF = 0) ∧
       (Chip8.spritePlots s op ≠ [] → s2.v 0xF = 1))) := by
  have e1 := sprite_eq s op s1 h1
  have e2 := sprite_eq s1 op s2 h2
  have hm : s1.memory = s.memory := by rw [e1]
  have hind : s1.index = s.index := by rw [e1]
  have hvX : s1.v ((op &&& 0x0F00) >>> 8) = s.v ((op &&& 0x0F00) >>> 8) := by
    rw [e1]
    exact Function.update_noteq hX _ _
  have hvY : s1.v ((op &&& 0x00F0) >>> 4) = s.v ((op &&& 0x00F0) >>> 4) := by
    rw [e1]
    exact Function.update_noteq hY _ _
  have hPmem : Chip8.spritePlots s1 op = Chip8.spritePlots s op := by
    simp only [Chip8.spritePlots, hm, hind, hvX, hvY]
  have hnd : (Chip8.spritePlots s op).Nodup := by
    have hN : op &&& 0x000F < 32 := by
      have := Nat.and_le_right (n := op) (m := 0x000F)
      omega
    unfold Chip8.spritePlots
    exact plotList_nodup _ _ _ _ _ (List.nodup_range _)
      (fun y hy => by have := List.mem_range.mp hy; omega)
  have hd1 : s1.display = (Chip8.blit (Chip8.spritePlots s op) s.display 0).1 := by
    rw [e1]
  have hv1 : s1.v 0xF = (Chip8.blit (Chip8.spritePlots s op) s.display 0).2 := by
    rw [e1]
    simp
  have hd2 : s2.display = (Chip8.blit (Chip8.spritePlots s op) s1.display 0).1 := by
    rw [e2, hPmem]
  have hv2 : s2.v 0xF = (Chip8.blit (Chip8.spritePlots s op) s1.display 0).2 := by
    rw [e2]
    simp [hPmem]
  refine ⟨?_, ?_, ?_, ?_⟩
  · funext i
    rw [hd2, hd1]
    by_cases hi : i ∈ Chip8.spritePlots s op
    · rw [blit_fst_mem _ _ _ _ hnd hi, blit_fst_mem _ _ _ _ hnd hi]
      simp [Nat.xor_assoc]
    · rw [blit_fst_not_mem _ _ _ _ hi, blit_fst_not_mem _ _ _ _ hi]
  · rw [hv1]
    rcases blit_snd_cases (Chip8.spritePlots s op) s.display 0 with h | h
    · exact Or.inr h
    · exact Or.inl h
  · rw [hv1, blit_snd_eq_one_iff _ _ _ hnd]
    simp
  · intro h0
    constructor
    · intro hP
      rw [hv2, hP]
      rfl
    · intro hP
      rw [hv2, blit_snd_eq_one_iff _ _ _ hnd]
      left
      obtain ⟨i, hi⟩ := List.exists_mem_of_ne_nil _ hP
      refine ⟨i, hi, ?_⟩
      rw [hd1, blit_fst_mem _ _ _ _ hnd hi, h0 i hi]
      rfl

/-- Witness for C6 at the concrete state `s_C6` and opcode `D001`. -/
theorem sprite_double_draw_witness :
    Chip8.s_C6b.display = Chip8.s_C6.display ∧
    (Chip8.s_C6a.v 0xF = 0 ∨ Chip8.s_C6a.v 0xF = 1) ∧
    (Chip8.s_C6a.v 0xF = 1 ↔
      ∃ i ∈ Chip8.spritePlots Chip8.s_C6 0xD001, Chip8.s_C6.display i = 1) ∧
    ((∀ i ∈ Chip8.spritePlots Chip8.s_C6 0xD001, Chip8.s_C6.display i = 0) →
      ((Chip8.spritePlots Chip8.s_C6 0xD001 = [] → Chip8.s_C6b.v 0xF = 0) ∧
       (Chip8.spritePlots Chip8.s_C6 0xD001 ≠ [] → Chip8.s_C6b.v 0xF = 1))) :=
  sprite_double_draw Chip8.s_C6 Chip8.s_C6a Chip8.s_C6b 0xD001
    (by decide) (by decide) rfl rfl

/-- Counterexample to claim C6 as stated: on an initially empty display
(no other sprite overlapped), drawing the 1-row sprite `0xF0` twice at
(0,0) restores the display but leaves VF at 1 — the second draw collides
with the first draw's own pixels — where the claim demands VF = 0. -/
theorem sprite_second_draw_vf_is_one :
    Chip8.sprite Chip8.s_C6 0xD001 = some Chip8.s_C6a ∧
    Chip8.sprite Chip8.s_C6a 0xD001 = some Chip8.s_C6b ∧
    Chip8.s_C6.display 0 = 0 ∧ Chip8.s_C6a.display 0 = 1 ∧
    Chip8.s_C6b.display 0 = 0 ∧ Chip8.s_C6b.v 0xF = 1 :=
  ⟨rfl, rfl, rfl, rfl, rfl, rfl⟩

/-- `ret` never writes memory. -/
theorem ret_memory (s s' : Chip8) (h : Chip8.ret s = some s') : s'.memory = s.memory := by
  rw [Chip8.ret.eq_def] at h
  cases hg : arrGet 16 s.stack ((s.sp + 65535) % 65536) with
  | none => rw [hg] at h; exact absurd h (by simp)
  | some a =>
    rw [hg] at h
    cases Option.some.inj h
    rfl

/-- `jsr` never writes memory. -/
theorem jsr_memory (s : Chip8) (op : ℕ) (s' : Chip8) (h : Chip8.jsr s op = some s') :
    s'.memory = s.memory := by
  simp only [Chip8.jsr] at h
  cases hg : arrSet 16 s.stack s.sp s.pc with
  | none => rw [hg] at h; exact absurd h (by simp)
  | some st =>
    rw [hg] at h
    cases Option.some.inj h
    rfl

/-- `sprite` writes the display, not memory. -/
theorem sprite_memory (s : Chip8) (op : ℕ) (s' : Chip8) (h : Chip8.sprite s op = some s') :
    s'.memory = s.memory := by
  rw [sprite_eq s op s' h]

/-- `skpr` never writes memory. -/
theorem skpr_memory (s : Chip8) (op : ℕ) (s' : Chip8) (h : Chip8.skpr s op = some s') :
    s'.memory = s.memory := by
  simp only [Chip8.skpr] at h
  cases hg : arrGet 16 s.key (s.v ((op &&& 0x0F00) >>> 8)) with
  | none => rw [hg] at h; exact absurd h (by simp)
  | some k =>
    rw [hg] at h
    cases Option.some.inj h
    rfl

/-- `skup` never writes memory. -/
theorem skup_memory (s : Chip8) (op : ℕ) (s' : Chip8) (h : Chip8.skup s op = some s') :
    s'.memory = s.memory := by
  simp only [Chip8.skup] at h
  cases hg : arrGet 16 s.key (s.v ((op &&& 0x0F00) >>> 8)) with
  | none => rw [hg] at h; exact absurd h (by simp)
  | some k =>
    rw [hg] at h
    cases Option.some.inj h
    rfl

/-- `ldr` reads memory into registers; memory itself is unchanged. -/
theorem ldr_memory (s : Chip8) (op : ℕ) (s' : Chip8) (h : Chip8.ldr s op = some s') :
    s'.memory = s.memory := by
  simp only [Chip8.ldr] at h
  cases hg : Chip8.ldr_go s.memory s.index (List.range (((op &&& 0x0F00) >>> 8) + 1)) s.v with
  | none => rw [hg] at h; exact absurd h (by simp)
  | some v1 =>
    rw [hg] at h
    cases Option.some.inj h
    rfl

/-- Dispatch-level memory preservation: every opcode except the
memory-store families `FX33` (bcd) and `FX55` (str) leaves the whole
4096-byte memory unchanged. -/
theorem decode_execute_memory (s : Chip8) (op r : ℕ) (s' : Chip8)
    (h : Chip8.decode_execute s op r = some s')
    (hnot : ¬ (op &&& 0xF000 = 0xF000 ∧ (op &&& 0x00FF = 0x33 ∨ op &&& 0x00FF = 0x55))) :
    s'.memory = s.memory := by
  rw [Chip8.decode_execute.eq_def] at h
  by_cases hc1 : op &&& 0xF000 = 0x0000
  · rw [if_pos hc1] at h
    by_cases hc2 : op &&& 0x00FF = 0x00E0
    · rw [if_pos hc2] at h
      cases Option.some.inj h
      rfl
    · rw [if_neg hc2] at h
      by_cases hc3 : op &&& 0x00FF = 0x00EE
      · rw [if_pos hc3] at h
        exact ret_memory _ _ h
      · rw [if_neg hc3] at h
        cases Option.some.inj h
        rfl
  · rw [if_neg hc1] at h
    by_cases hc4 : op &&& 0xF000 = 0x1000
    · rw [if_pos hc4] at h
      cases Option.some.inj h
      rfl
    · rw [if_neg hc4] at h
      by_cases hc5 : op &&& 0xF000 = 0x2000
      · rw [if_pos hc5] at h
        exact jsr_memory _ _ _ h
      · rw [if_neg hc5] at h
        by_cases hc6 : op &&& 0xF000 = 0x3000
        · rw [if_pos hc6] at h
          cases Option.some.inj h
          rfl
        · rw [if_neg hc6] at h
          by_cases hc7 : op &&& 0xF000 = 0x4000
          · rw [if_pos hc7] at h
            cases Option.some.inj h
            rfl
          · rw [if_neg hc7] at h
            by_cases hc8 : op &&& 0xF000 = 0x5000
            · rw [if_pos hc8] at h
              cases Option.some.inj h
              rfl
            · rw [if_neg hc8] at h
              by_cases hc9 : op &&& 0xF000 = 0x6000
              · rw [if_pos hc9] at h
                cases Option.some.inj h
                rfl
              · rw [if_neg hc9] at h
                by_cases hc10 : op &&& 0xF000 = 0x7000
                · rw [if_pos hc10] at h
                  cases Option.some.inj h
                  rfl
                · rw [if_neg hc10] at h
                  by_cases hc11 : op &&& 0xF000 = 0x8000
                  · rw [if_pos hc11] at h
                    by_cases hc12 : op &&& 0x000F = 0x000
                    · rw [if_pos hc12] at h
                      cases Option.some.inj h
                      rfl
                    · rw [if_neg hc12] at h
                      by_cases hc13 : op &&& 0x000F = 0x001
                      · rw [if_pos hc13] at h
                        cases Option.some.inj h
                        rfl
                      · rw [if_neg hc13] at h
                        by_cases hc14 : op &&& 0x000F = 0x002
                        · rw [if_pos hc14] at h
                          cases Option.some.inj h
                          rfl
                        · rw [if_neg hc14] at h
                          by_cases hc15 : op &&& 0x000F = 0x003
                          · rw [if_pos hc15] at h
                            cases Option.some.inj h
                            rfl
                          · rw [if_neg hc15] at h
                            by_cases hc16 : op &&& 0x000F = 0x004
                            · rw [if_pos hc16] at h
                              cases Option.some.inj h
                              rfl
                            · rw [if_neg hc16] at h
                              by_cases hc17 : op &&& 0x000F = 0x005
                              · rw [if_pos hc17] at h
                                cases Option.some.inj h
                                rfl
                              · rw [if_neg hc17] at h
                                by_cases hc18 : op &&& 0x000F = 0x006
                                · rw [if_pos hc18] at h
                                  cases Option.some.inj h
                                  rfl
                                · rw [if_neg hc18] at h
                                  by_cases hc19 : op &&& 0x000F = 0x007
                                  · rw [if_pos hc19] at h
                                    cases Option.some.inj h
                                    rfl
                                  · rw [if_neg hc19] at h
                                    by_cases hc20 : op &&& 0x000F = 0x00E
                                    · rw [if_pos hc20] at h
                                      cases Option.some.inj h
                                      rfl
                                    · rw [if_neg hc20] at h
                                      cases Option.some.inj h
                                      rfl
                  · rw [if_neg hc11] at h
                    by_cases hc21 : op &&& 0xF000 = 0x9000
                    · rw [if_pos hc21] at h
                      cases Option.some.inj h
                      rfl
                    · rw [if_neg hc21] at h
                      by_cases hc22 : op &&& 0xF000 = 0xA000
                      · rw [if_pos hc22] at h
                        cases Option.some.inj h
                        rfl
                      · rw [if_neg hc22] at h
                        by_cases hc23 : op &&& 0xF000 = 0xB000
                        · rw [if_pos hc23] at h
                          cases Option.some.inj h
                          rfl
                        · rw [if_neg hc23] at h
                          by_cases hc24 : op &&& 0xF000 = 0xC000
                          · rw [if_pos hc24] at h
                            cases Option.some.inj h
                            rfl
                          · rw [if_neg hc24] at h
                            by_cases hc25 : op &&& 0xF000 = 0xD000
                            · rw [if_pos hc25] at h
                              exact sprite_memory _ _ _ h
                            · rw [if_neg hc25] at h
                              by_cases hc26 : op &&& 0xF000 = 0xE000
                              · rw [if_pos hc26] at h
                                by_cases hc27 : op &&& 0x000F = 0x000E
                                · rw [if_pos hc27] at h
                                  exact skpr_memory _ _ _ h
                                · rw [if_neg hc27] at h
                                  by_cases hc28 : op &&& 0x000F = 0x0001
                                  · rw [if_pos hc28] at h
                                    exact skup_memory _ _ _ h
                                  · rw [if_neg hc28] at h
                                    cases Option.some.inj h
                                    rfl
                              · rw [if_neg hc26] at h
                                by_cases hc29 : op &&& 0xF000 = 0xF000
                                · rw [if_pos hc29] at h
                                  by_cases hc30 : op &&& 0x00FF = 0x0007
                                  · rw [if_pos hc30] at h
                                    cases Option.some.inj h
                                    rfl
                                  · rw [if_neg hc30] at h
                                    by_cases hc31 : op &&& 0x00FF = 0x000a
                                    · rw [if_pos hc31] at h
                                      cases Option.some.inj h
                                      rfl
                                    · rw [if_neg hc31] at h
                                      by_cases hc32 : op &&& 0x00FF = 0x0015
                                      · rw [if_pos hc32] at h
                                        cases Option.some.inj h
                                        rfl
                                      · rw [if_neg hc32] at h
                                        by_cases hc33 : op &&& 0x00FF = 0x0018
                                        · rw [if_pos hc33] at h
                                          cases Option.some.inj h
                                          rfl
                                        · rw [if_neg hc33] at h
                                          by_cases hc34 : op &&& 0x00FF = 0x001e
                                          · rw [if_pos hc34] at h
                                            cases Option.some.inj h
                                            rfl
                                          · rw [if_neg hc34] at h
                                            by_cases hc35 : op &&& 0x00FF = 0x0029
                                            · rw [if_pos hc35] at h
                                              cases Option.some.inj h
                                              rfl
                                            · rw [if_neg hc35] at h
                                              by_cases hc36 : op &&& 0x00FF = 0x0033
                                              · rw [if_pos hc36] at h
                                                exact absurd ⟨hc29, Or.inl hc36⟩ hnot
                                              · rw [if_neg hc36] at h
                                                by_cases hc37 : op &&& 0x00FF = 0x0055
                                                · rw [if_pos hc37] at h
                                                  exact absurd ⟨hc29, Or.inr hc37⟩ hnot
                                                · rw [if_neg hc37] at h
                                                  by_cases hc38 : op &&& 0x00FF = 0x0065
                                                  · rw [if_pos hc38] at h
                                                    exact ldr_memory _ _ _ h
                                                  · rw [if_neg hc38] at h
                                                    cases Option.some.inj h
                                                    rfl
                                · rw [if_neg hc29] at h
                                  cases Option.some.inj h
                                  rfl

/-- The timer tick never writes memory. -/
theorem tickTimers_memory (s : Chip8) : (Chip8.tickTimers s).memory = s.memory := by
  simp only [Chip8.tickTimers]
  split_ifs <;> rfl

/-- Claim C5 (amended): the font region `memory[0x50..0x9F]` is written at
initialization and is never mutated by a cycle whose fetched opcode is not
an `FX33` (bcd-store) or `FX55` (register-dump), the two opcodes that
write memory at the index register and can therefore reach the font region
(the counterexample `cycle_overwrites_font` shows the unrestricted claim
fails for them). -/
theorem cycle_preserves_font (s : Chip8) (r : ℕ) (s' : Chip8)
    (h : Chip8.cycle s r = some s')
    (hop : ∀ opc, Chip8.fetch_opcode s = some opc →
      ¬ (opc &&& 0xF000 = 0xF000 ∧ (opc &&& 0x00FF = 0x33 ∨ opc &&& 0x00FF = 0x55)))
    (a : ℕ) (h1 : 0x50 ≤ a) (h2 : a ≤ 0x9F) :
    s'.memory a = s.memory a := by
  cases hf : Chip8.fetch_opcode s with
  | none =>
    simp only [Chip8.cycle, hf] at h
    exact Option.noConfusion h
  | some opc =>
    simp only [Chip8.cycle, hf] at h
    cases hd : Chip8.decode_execute { s with opcode := opc } opc r with
    | none => rw [hd] at h; exact absurd h (by simp)
    | some s2 =>
      rw [hd] at h
      have hm2 := decode_execute_memory _ _ _ _ hd (hop opc hf)
      cases Option.some.inj h
      rw [tickTimers_memory, hm2]

/-- Witness for C5: one cycle of the fresh machine (opcode `0x0000`)
leaves font byte `memory[0x50]` intact. -/
theorem cycle_preserves_font_witness :
    Chip8.cycle Chip8.new 0 = some Chip8.r_C5w ∧
    Chip8.r_C5w.memory 0x50 = Chip8.new.memory 0x50 :=
  ⟨rfl, cycle_preserves_font Chip8.new 0 Chip8.r_C5w rfl
    (fun opc hf => by cases Option.some.inj hf; decide) 0x50 (by decide) (by decide)⟩

/-- `jsr` with a free stack slot pushes the current (pre-jump) program
counter at `stack[sp]`, increments `sp`, and jumps to NNN. -/
theorem jsr_spec (s : Chip8) (op : ℕ) (hsp : s.sp < 16) :
    Chip8.jsr s op = some { s with
      stack := Function.update s.stack s.sp s.pc,
      sp := (s.sp + 1) % 65536, pc := op &&& 0x0FFF } := by
  unfold Chip8.jsr
  have ha : arrSet 16 s.stack s.sp s.pc = some (Function.update s.stack s.sp s.pc) := by
    unfold arrSet
    rw [if_pos hsp]
  rw [ha]

/-- `ret` with a nonempty in-range stack pops `stack[sp-1]` and sets the
counter to the popped value minus 2 plus 4 (all mod 2^16). -/
theorem ret_spec (s : Chip8) (h1 : 1 ≤ s.sp) (h2 : s.sp ≤ 16) :
    Chip8.ret s = some { s with
      sp := s.sp - 1,
      pc := ((s.stack (s.sp - 1) + 65534) % 65536 + 4) % 65536 } := by
  rw [Chip8.ret.eq_def]
  have hm : (s.sp + 65535) % 65536 = s.sp - 1 := by omega
  rw [hm]
  have ha : arrGet 16 s.stack (s.sp - 1) = some (s.stack (s.sp - 1)) := by
    unfold arrGet
    rw [if_pos (by omega)]
  rw [ha]

/-- Any `2NNN` opcode dispatches to `jsr`. -/
theorem decode_jsr (s : Chip8) (op r : ℕ) (hop : op &&& 0xF000 = 0x2000) :
    Chip8.decode_execute s op r = Chip8.jsr s op := by
  rw [Chip8.decode_execute.eq_def, hop]
  norm_num

/-- Opcode `00EE` dispatches to `ret`. -/
theorem decode_ret (s : Chip8) (r : ℕ) :
    Chip8.decode_execute s 0x00EE r = Chip8.ret s := by
  rw [Chip8.decode_execute.eq_def]
  simp [(by decide : (0x00EE &&& 0xF000 : ℕ) = 0), (by decide : (0x00EE &&& 0x00FF : ℕ) = 0x00EE)]

/-- Claim C7: executing `2NNN` (call) from any state with a free stack
slot pushes the call-site program counter and jumps to NNN; a subsequent
`00EE` (return), with no intervening stack operation, resumes at the
call-site address plus 2 (mod 2^16) — the instruction after the call. -/
theorem call_ret_roundtrip (s : Chip8) (op r1 r2 : ℕ)
    (hop : op &&& 0xF000 = 0x2000) (hsp : s.sp < 16) :
    Chip8.decode_execute s op r1 = some { s with
        stack := Function.update s.stack s.sp s.pc,
        sp := (s.sp + 1) % 65536, pc := op &&& 0x0FFF } ∧
    Chip8.decode_execute { s with
        stack := Function.update s.stack s.sp s.pc,
        sp := (s.sp + 1) % 65536, pc := op &&& 0x0FFF } 0x00EE r2 =
      some { s with
        stack := Function.update s.stack s.sp s.pc,
        pc := (s.pc + 2) % 65536 } := by
  constructor
  · rw [decode_jsr s op r1 hop]
    exact jsr_spec s op hsp
  · rw [decode_ret _ r2]
    rw [ret_spec _ (by simp; omega) (by simp; omega)]
    simp only [Option.some.injEq, Chip8.mk.injEq]
    have e1 : (s.sp + 1) % 65536 - 1 = s.sp := by omega
    refine ⟨trivial, trivial, ?_, e1, trivial, trivial, trivial, trivial, trivial,
      trivial, trivial, trivial⟩
    rw [e1, Function.update_same]
    omega

/-- Witness for C7: the spec's own scenario — call `2300` from the fresh
machine (PC = 0x200, sp = 0), then return: execution resumes at 0x202. -/
theorem call_ret_roundtrip_witness :
    Chip8.decode_execute Chip8.new 0x2300 0 = some { Chip8.new with
        stack := Function.update Chip8.new.stack Chip8.new.sp Chip8.new.pc,
        sp := (Chip8.new.sp + 1) % 65536, pc := 0x2300 &&& 0x0FFF } ∧
    Chip8.decode_execute { Chip8.new with
        stack := Function.update Chip8.new.stack Chip8.new.sp Chip8.new.pc,
        sp := (Chip8.new.sp + 1) % 65536, pc := 0x2300 &&& 0x0FFF } 0x00EE 0 =
      some { Chip8.new with
        stack := Function.update Chip8.new.stack Chip8.new.sp Chip8.new.pc,
        pc := (Chip8.new.pc + 2) % 65536 } :=
  call_ret_roundtrip Chip8.new 0x2300 0 0 (by decide) (by decide)

/-- Any `8XY5` opcode dispatches to `sub_r`. -/
theorem decode_sub (s : Chip8) (op r : ℕ)
    (hop : op &&& 0xF000 = 0x8000) (hlo : op &&& 0x000F = 0x0005) :
    Chip8.decode_execute s op r = some (Chip8.sub_r s op) := by
  rw [Chip8.decode_execute.eq_def, hop, hlo]
  norm_num

/-- Claim C8 (amended): for every `8XY5` opcode with byte values in the
registers, execution dispatches to `sub_r`, which sets `VF` to 1 exactly
when `Vx ≥ Vy` before the operation (no borrow) and 0 otherwise, stores
`(Vx − Vy) mod 256` in `Vx` — provided `X ≠ 0xF`, since for `X = 0xF` the
borrow-flag write (performed second) overwrites the difference — and
advances the program counter by 2.  The case `X = Y` is covered (then
`Vx` becomes 0 and `VF` 1). -/
theorem sub_spec (s : Chip8) (op r : ℕ)
    (hop : op &&& 0xF000 = 0x8000) (hlo : op &&& 0x000F = 0x0005)
    (ha : s.v ((op &&& 0x0F00) >>> 8) < 256) (hb : s.v ((op &&& 0x00F0) >>> 4) < 256) :
    Chip8.decode_execute s op r = some (Chip8.sub_r s op) ∧
    (Chip8.sub_r s op).v 0xF =
      (if s.v ((op &&& 0x0F00) >>> 8) ≥ s.v ((op &&& 0x00F0) >>> 4) then 1 else 0) ∧
    ((op &&& 0x0F00) >>> 8 ≠ 0xF →
      ((Chip8.sub_r s op).v ((op &&& 0x0F00) >>> 8) : ℤ) =
        ((s.v ((op &&& 0x0F00) >>> 8) : ℤ) - (s.v ((op &&& 0x00F0) >>> 4) : ℤ)) % 256) ∧
    (Chip8.sub_r s op).pc = (s.pc + 2) % 65536 := by
  have hsub : Chip8.sub_r s op = { s with
      v := Function.update (Function.update s.v ((op &&& 0x0F00) >>> 8)
          (wsub8 (s.v ((op &&& 0x0F00) >>> 8)) (s.v ((op &&& 0x00F0) >>> 4)))) 0xF
        (if s.v ((op &&& 0x0F00) >>> 8) ≥ s.v ((op &&& 0x00F0) >>> 4) then 1 else 0),
      pc := (s.pc + 2) % 65536 } := rfl
  refine ⟨decode_sub s op r hop hlo, ?_, ?_, by rw [hsub]⟩
  · rw [hsub]
    simp
  · intro hx
    rw [hsub]
    simp only [Function.update_noteq hx, Function.update_same]
    unfold wsub8
    omega

/-- Witness for C8 at `s_C8` (`v[1] = 0`, `v[0] = 3`) and opcode `8105`. -/
theorem sub_spec_witness :
    Chip8.decode_execute Chip8.s_C8 0x8105 0 = some (Chip8.sub_r Chip8.s_C8 0x8105) ∧
    (Chip8.sub_r Chip8.s_C8 0x8105).v 0xF =
      (if Chip8.s_C8.v ((0x8105 &&& 0x0F00) >>> 8) ≥
          Chip8.s_C8.v ((0x8105 &&& 0x00F0) >>> 4) then 1 else 0) ∧
    ((0x8105 &&& 0x0F00) >>> 8 ≠ 0xF →
      ((Chip8.sub_r Chip8.s_C8 0x8105).v ((0x8105 &&& 0x0F00) >>> 8) : ℤ) =
        ((Chip8.s_C8.v ((0x8105 &&& 0x0F00) >>> 8) : ℤ) -
          (Chip8.s_C8.v ((0x8105 &&& 0x00F0) >>> 4) : ℤ)) % 256) ∧
    (Chip8.sub_r Chip8.s_C8 0x8105).pc = (Chip8.s_C8.pc + 2) % 65536 :=
  sub_spec Chip8.s_C8 0x8105 0 (by decide) (by decide) (by decide) (by decide)

/-- Counterexample to claim C8 as stated: with `X = 0xF` (opcode `8F05`,
`v[0xF] = 5`, `v[0] = 3`) the flag write overwrites the difference:
afterwards `v[0xF] = 1`, not `(5 − 3) mod 256 = 2` as the claim requires
of `Vx`. -/
theorem sub_x_is_flag_register :
    Chip8.decode_execute Chip8.s_C8 0x8F05 0 = some Chip8.r_C8 ∧
    Chip8.s_C8.v 0xF = 5 ∧ Chip8.s_C8.v 0 = 3 ∧
    Chip8.r_C8.v 0xF = 1 ∧ ((5 : ℤ) - 3) % 256 = 2 ∧ Chip8.r_C8.v 0xF ≠ 2 :=
  ⟨rfl, rfl, rfl, rfl, by decide, by decide⟩
